import Mathlib

/-!
Verification of the Hussh SSH-client library core against its specification.

The Rust sources (src/connection.rs, src/asynchronous.rs, src/multi_conn.rs)
are shallowly embedded: file contents and channel payloads become lists of
bytes or strings, stateful methods become explicit state-passing functions,
fallible paths return Except or an explicit outcome type, and the external
SSH library calls (channel reads, SFTP stat/open, disconnect) are passed in
as explicit parameters describing the outcome the library delivered.
-/

namespace Hussh

/-- Embeds connection.rs SSHResult: stdout, stderr and the exit status of one
command. The status is the i32 the channel reported. -/
structure SSHResult where
  stdout : String
  stderr : String
  status : Int
deriving DecidableEq

/-! ## MultiResult (multi_conn.rs)

The Rust MultiResult wraps a HashMap from host name to SSHResult. The map is
embedded as an association list; where a property needs the HashMap key
uniqueness invariant it appears as a Nodup hypothesis on the key list. -/

/-- Embeds multi_conn.rs MultiResult: the host to result mapping. -/
structure MultiResult where
  results : List (String × SSHResult)
deriving DecidableEq

/-- MultiResult.keys: the host names of the mapping. -/
def MultiResult.keys (mr : MultiResult) : List String :=
  mr.results.map Prod.fst

/-- Embeds MultiResult::failed: the entries whose status is nonzero, as a new
MultiResult, or None when there are no failed entries. -/
def MultiResult.failed (mr : MultiResult) : Option MultiResult :=
  let failed_results := mr.results.filter (fun p => p.2.status != 0)
  if failed_results.isEmpty then none
  else some { results := failed_results }

/-- Embeds MultiResult::succeeded: the entries whose status is zero, as a new
MultiResult, or None when there are no successful entries. -/
def MultiResult.succeeded (mr : MultiResult) : Option MultiResult :=
  let succeeded_results := mr.results.filter (fun p => p.2.status == 0)
  if succeeded_results.isEmpty then none
  else some { results := succeeded_results }

/-- The PartialFailureException of multi_conn.rs: the message together with
the two attributes set on the raised exception object. -/
structure PartialFailureError where
  succeeded : Option MultiResult
  failed : Option MultiResult
  message : String
deriving DecidableEq

/-- Embeds MultiResult::raise_if_any_failed: collect the entries with nonzero
status; if any exist, raise a PartialFailureException carrying the succeeded
and failed views and the counted message; otherwise return unit. -/
def MultiResult.raise_if_any_failed (mr : MultiResult) : Except PartialFailureError Unit :=
  let failedEntries := mr.results.filter (fun p => p.2.status != 0)
  if failedEntries.isEmpty then Except.ok ()
  else
    let failed_count := failedEntries.length
    let total_count := mr.results.length
    Except.error
      { succeeded := mr.succeeded
        failed := mr.failed
        message := "Operation failed on " ++ toString failed_count ++ " of " ++
          toString total_count ++ " host(s)" }

/-- The key list of an optional MultiResult, reading the None sentinel as the
empty mapping (as the specification directs for the derived views). -/
def keysOfOpt : Option MultiResult → List String
  | none => []
  | some mr => mr.keys

theorem mem_keysOfOpt_succeeded (mr : MultiResult) (k : String) :
    k ∈ keysOfOpt mr.succeeded ↔ ∃ r, (k, r) ∈ mr.results ∧ r.status = 0 := by
  simp only [MultiResult.succeeded]
  by_cases h : (mr.results.filter (fun p => p.2.status == 0)).isEmpty
  · rw [if_pos h]
    simp only [keysOfOpt, List.not_mem_nil, false_iff, not_exists]
    rintro r ⟨hr, hst⟩
    rw [List.isEmpty_iff, List.filter_eq_nil_iff] at h
    exact h (k, r) hr (by simp [hst])
  · rw [if_neg h]
    simp only [keysOfOpt, MultiResult.keys, List.mem_map, List.mem_filter]
    constructor
    · rintro ⟨⟨k', r⟩, ⟨hmem, hst⟩, rfl⟩
      exact ⟨r, hmem, by simpa using hst⟩
    · rintro ⟨r, hmem, hst⟩
      exact ⟨(k, r), ⟨hmem, by simp [hst]⟩, rfl⟩

theorem mem_keysOfOpt_failed (mr : MultiResult) (k : String) :
    k ∈ keysOfOpt mr.failed ↔ ∃ r, (k, r) ∈ mr.results ∧ r.status ≠ 0 := by
  simp only [MultiResult.failed]
  by_cases h : (mr.results.filter (fun p => p.2.status != 0)).isEmpty
  · rw [if_pos h]
    simp only [keysOfOpt, List.not_mem_nil, false_iff, not_exists]
    rintro r ⟨hr, hst⟩
    rw [List.isEmpty_iff, List.filter_eq_nil_iff] at h
    exact h (k, r) hr (by simpa using hst)
  · rw [if_neg h]
    simp only [keysOfOpt, MultiResult.keys, List.mem_map, List.mem_filter]
    constructor
    · rintro ⟨⟨k', r⟩, ⟨hmem, hst⟩, rfl⟩
      exact ⟨r, hmem, by simpa using hst⟩
    · rintro ⟨r, hmem, hst⟩
      exact ⟨(k, r), ⟨hmem, by simpa using hst⟩, rfl⟩

/-- In a list with no duplicate keys, a key determines its value. -/
theorem keys_nodup_mem_unique {l : List (String × SSHResult)}
    (h : (l.map Prod.fst).Nodup) {k : String} {a b : SSHResult}
    (ha : (k, a) ∈ l) (hb : (k, b) ∈ l) : a = b := by
  induction l with
  | nil => cases ha
  | cons p t ih =>
    rw [List.map_cons, List.nodup_cons] at h
    rcases List.mem_cons.mp ha with ha' | ha' <;>
      rcases List.mem_cons.mp hb with hb' | hb'
    · rw [← ha'] at hb'; exact congrArg Prod.snd hb'.symm
    · exfalso
      exact h.1 (ha' ▸ (List.mem_map.mpr ⟨(k, b), hb', rfl⟩))
    · exfalso
      exact h.1 (hb' ▸ (List.mem_map.mpr ⟨(k, a), ha', rfl⟩))
    · exact ih h.2 ha' hb'

/-- Claim C4: raise_if_any_failed raises the partial-failure error exactly
when some Result has nonzero status, and the raised error carries the
succeeded and failed views and the message counting K failed of N hosts. -/
theorem raise_if_any_failed_spec (mr : MultiResult) :
    ((∃ e, mr.raise_if_any_failed = Except.error e) ↔
      ∃ p ∈ mr.results, p.2.status ≠ 0) ∧
    (∀ e, mr.raise_if_any_failed = Except.error e →
      e.succeeded = mr.succeeded ∧ e.failed = mr.failed ∧
      e.message = "Operation failed on " ++
        toString (mr.results.countP (fun p => p.2.status != 0)) ++ " of " ++
        toString mr.results.length ++ " host(s)") := by
  simp only [MultiResult.raise_if_any_failed]
  by_cases h : (mr.results.filter (fun p => p.2.status != 0)).isEmpty
  · rw [if_pos h]
    refine ⟨⟨fun he => ?_, fun he => ?_⟩, fun e he => by cases he⟩
    · rcases he with ⟨e, he⟩; cases he
    · rcases he with ⟨p, hp, hst⟩
      rw [List.isEmpty_iff, List.filter_eq_nil_iff] at h
      exact absurd (by simpa using hst) (h p hp)
  · rw [if_neg h]
    refine ⟨⟨fun _ => ?_, fun _ => ⟨_, rfl⟩⟩, fun e he => ?_⟩
    · rw [List.isEmpty_iff] at h
      rcases List.exists_mem_of_ne_nil _ h with ⟨p, hp⟩
      exact ⟨p, (List.mem_filter.mp hp).1, by
        simpa using (List.mem_filter.mp hp).2⟩
    · cases he
      exact ⟨rfl, rfl, by rw [List.countP_eq_length_filter]⟩

/-- A concrete MultiResult with one successful and one failed host, used by
the witnesses of the MultiResult claims. -/
def mrSample : MultiResult :=
  { results := [("h1", { stdout := "", stderr := "", status := 0 }),
                ("h2", { stdout := "", stderr := "boom", status := -1 })] }

/-- Claim C5: reading the None sentinel as the empty mapping, the key sets of
succeeded and failed partition the key set of the MultiResult: their union is
the key set and they are disjoint. -/
theorem succeeded_failed_partition (mr : MultiResult)
    (hnodup : mr.keys.Nodup) (k : String) :
    ((k ∈ keysOfOpt mr.succeeded ∨ k ∈ keysOfOpt mr.failed) ↔ k ∈ mr.keys) ∧
    ¬ (k ∈ keysOfOpt mr.succeeded ∧ k ∈ keysOfOpt mr.failed) := by
  constructor
  · rw [mem_keysOfOpt_succeeded, mem_keysOfOpt_failed]
    constructor
    · rintro (⟨r, hmem, _⟩ | ⟨r, hmem, _⟩) <;>
        exact List.mem_map.mpr ⟨(k, r), hmem, rfl⟩
    · intro hk
      rcases List.mem_map.mp hk with ⟨⟨k', r⟩, hmem, hk'⟩
      cases hk'
      by_cases hst : r.status = 0
      · exact Or.inl ⟨r, hmem, hst⟩
      · exact Or.inr ⟨r, hmem, hst⟩
  · rintro ⟨hs, hf⟩
    rcases (mem_keysOfOpt_succeeded mr k).mp hs with ⟨a, hamem, ha⟩
    rcases (mem_keysOfOpt_failed mr k).mp hf with ⟨b, hbmem, hb⟩
    exact hb (keys_nodup_mem_unique hnodup hbmem hamem ▸ ha)

/-- Witness for C5 at a concrete two-host MultiResult. -/
theorem succeeded_failed_partition_witness :
    (("h1" ∈ keysOfOpt mrSample.succeeded ∨ "h1" ∈ keysOfOpt mrSample.failed) ↔
      "h1" ∈ mrSample.keys) ∧
    ¬ ("h1" ∈ keysOfOpt mrSample.succeeded ∧ "h1" ∈ keysOfOpt mrSample.failed) :=
  succeeded_failed_partition mrSample (by decide) "h1"

/-! ## MultiConnection::connect with pruning (multi_conn.rs)

Each connect task either succeeds (outcome none) or fails with an error text
(outcome some errMsg); the outcome a host's task observes is passed in as a
function of the host. The join loop turns each outcome into an SSHResult;
the EMFILE detection aborts the whole call before any MultiResult or pruning
exists, so the embedding covers the runs on which connect returns. -/

/-- Embeds the join-loop arms of MultiConnection::connect: a successful task
becomes an empty Result with status 0, a failed one carries the error text in
stderr with status -1. -/
def connectResult : Option String → SSHResult
  | none => { stdout := "", stderr := "", status := 0 }
  | some errMsg => { stdout := "", stderr := errMsg, status := -1 }

/-- The host to Result mapping MultiConnection::connect aggregates: one entry
per dispatched host, from that host's task outcome. -/
def connectResults (hosts : List String) (outcome : String → Option String) :
    List (String × SSHResult) :=
  hosts.map (fun h => (h, connectResult (outcome h)))

/-- Embeds the successful_hosts set of MultiConnection::connect: the hosts
whose Result has status 0. -/
def successfulHosts (results : List (String × SSHResult)) : List String :=
  (results.filter (fun p => p.2.status == 0)).map Prod.fst

/-- Embeds the pruning loop of MultiConnection::connect: walk the aligned
(host, connection) pairs in order and keep exactly those whose host is in the
successful set (the source iterates hosts by index and pushes
connections[i]; on index-aligned lists that is this filter over the zip). -/
def pruneFailures {α : Type} (pairs : List (String × α))
    (results : List (String × SSHResult)) : List (String × α) :=
  pairs.filter (fun p => (successfulHosts results).contains p.1)

theorem mem_successfulHosts (results : List (String × SSHResult)) (h : String) :
    h ∈ successfulHosts results ↔ ∃ r, (h, r) ∈ results ∧ r.status = 0 := by
  simp only [successfulHosts, List.mem_map, List.mem_filter]
  constructor
  · rintro ⟨⟨h', r⟩, ⟨hmem, hst⟩, rfl⟩
    exact ⟨r, hmem, by simpa using hst⟩
  · rintro ⟨r, hmem, hst⟩
    exact ⟨(h, r), ⟨hmem, by simp [hst]⟩, rfl⟩

theorem mem_connectResults (hosts : List String) (outcome : String → Option String)
    (h : String) (r : SSHResult) :
    (h, r) ∈ connectResults hosts outcome ↔
      h ∈ hosts ∧ r = connectResult (outcome h) := by
  simp only [connectResults, List.mem_map, Prod.mk.injEq]
  constructor
  · rintro ⟨x, hx, rfl, rfl⟩; exact ⟨hx, rfl⟩
  · rintro ⟨hh, rfl⟩; exact ⟨h, hh, rfl, rfl⟩

theorem connectResult_status_eq_zero (o : Option String) :
    (connectResult o).status = 0 ↔ o = none := by
  cases o <;> simp [connectResult]

/-- Claim C3: after connect(prune_failures=true), the surviving host list
holds exactly the hosts whose connect Result had status 0, the (host,
connection) pairs are removed together (the survivors are a sublist of the
original aligned pairs, so order and alignment are preserved), and the
rebuilt host and connection lists re-zip to exactly those pairs. -/
theorem connect_prune_spec {α : Type} (hosts : List String) (conns : List α)
    (outcome : String → Option String)
    (hlen : hosts.length = conns.length) :
    (∀ h, h ∈ (pruneFailures (hosts.zip conns) (connectResults hosts outcome)).map Prod.fst
        ↔ ∃ r, (h, r) ∈ connectResults hosts outcome ∧ r.status = 0) ∧
    List.Sublist (pruneFailures (hosts.zip conns) (connectResults hosts outcome))
      (hosts.zip conns) ∧
    ((pruneFailures (hosts.zip conns) (connectResults hosts outcome)).map Prod.fst).zip
        ((pruneFailures (hosts.zip conns) (connectResults hosts outcome)).map Prod.snd)
      = pruneFailures (hosts.zip conns) (connectResults hosts outcome) := by
  refine ⟨fun h => ?_, List.filter_sublist _, (List.zip_of_prod rfl rfl).symm⟩
  simp only [pruneFailures, List.mem_map, List.mem_filter]
  constructor
  · rintro ⟨⟨h', c⟩, ⟨hmem, hcont⟩, rfl⟩
    rw [List.elem_iff, mem_successfulHosts] at hcont
    exact hcont
  · rintro ⟨r, hmem, hst⟩
    have hh : h ∈ hosts := ((mem_connectResults hosts outcome h r).mp hmem).1
    have hh' : h ∈ (hosts.zip conns).map Prod.fst := by
      rw [List.map_fst_zip hosts conns (le_of_eq hlen)]; exact hh
    rcases List.mem_map.mp hh' with ⟨p, hp, hph⟩
    refine ⟨p, ⟨hp, ?_⟩, hph⟩
    rw [hph, List.elem_iff, mem_successfulHosts]
    exact ⟨r, hmem, hst⟩

/-- Witness for C3: two hosts of which the second fails to connect. -/
theorem connect_prune_witness :
    (∀ h, h ∈ (pruneFailures (["h1", "h2"].zip [0, 1])
          (connectResults ["h1", "h2"]
            (fun x => if x == "h2" then some "refused" else none))).map Prod.fst
        ↔ ∃ r, (h, r) ∈ connectResults ["h1", "h2"]
            (fun x => if x == "h2" then some "refused" else none) ∧ r.status = 0) ∧
    List.Sublist (pruneFailures (["h1", "h2"].zip [0, 1])
        (connectResults ["h1", "h2"]
          (fun x => if x == "h2" then some "refused" else none)))
      (["h1", "h2"].zip [0, 1]) ∧
    ((pruneFailures (["h1", "h2"].zip [0, 1])
        (connectResults ["h1", "h2"]
          (fun x => if x == "h2" then some "refused" else none))).map Prod.fst).zip
        ((pruneFailures (["h1", "h2"].zip [0, 1])
          (connectResults ["h1", "h2"]
            (fun x => if x == "h2" then some "refused" else none))).map Prod.snd)
      = pruneFailures (["h1", "h2"].zip [0, 1])
          (connectResults ["h1", "h2"]
            (fun x => if x == "h2" then some "refused" else none)) :=
  connect_prune_spec ["h1", "h2"] [0, 1]
    (fun x => if x == "h2" then some "refused" else none) rfl

/-! ## Fan-out aggregation into a host-keyed mapping (multi_conn.rs)

Every fan-out operation (connect, execute, execute_map, the sftp operations)
spawns one task per (host, connection) pair and inserts each finished task
pair (host, result) into a HashMap keyed by host. HashMap insertion on the
association-list embedding: replace the value when the key is present,
append otherwise. -/

/-- HashMap::insert on the association-list embedding of the results map. -/
def mapInsert (m : List (String × SSHResult)) (k : String) (v : SSHResult) :
    List (String × SSHResult) :=
  if m.any (fun p => p.1 == k) then
    m.map (fun p => if p.1 == k then (k, v) else p)
  else m ++ [(k, v)]

/-- The join loop of a fan-out operation: insert the (host, result) pair of
each task into the results map in arrival order. -/
def aggregateResults (pairs : List (String × SSHResult)) :
    List (String × SSHResult) :=
  pairs.foldl (fun m p => mapInsert m p.1 p.2) []

theorem mapInsert_keys_eq_of_mem (m : List (String × SSHResult)) (k : String)
    (v : SSHResult) (h : m.any (fun p => p.1 == k)) :
    (mapInsert m k v).map Prod.fst = m.map Prod.fst := by
  simp only [mapInsert, if_pos h, List.map_map]
  refine List.map_congr_left (fun p _ => ?_)
  by_cases hpk : p.1 = k <;> simp [Function.comp, hpk]

theorem mapInsert_keys_mem (m : List (String × SSHResult)) (k : String)
    (v : SSHResult) (a : String) :
    a ∈ (mapInsert m k v).map Prod.fst ↔ a ∈ m.map Prod.fst ∨ a = k := by
  by_cases h : m.any (fun p => p.1 == k)
  · rw [mapInsert_keys_eq_of_mem m k v h]
    rw [List.any_eq_true] at h
    rcases h with ⟨q, hq, hqk⟩
    rw [beq_iff_eq] at hqk
    constructor
    · exact Or.inl
    · rintro (ha | rfl)
      · exact ha
      · exact List.mem_map.mpr ⟨q, hq, hqk⟩
  · simp only [mapInsert, if_neg h, List.map_append, List.map_cons, List.map_nil,
      List.mem_append, List.mem_singleton]

theorem mapInsert_keys_nodup (m : List (String × SSHResult)) (k : String)
    (v : SSHResult) (h : (m.map Prod.fst).Nodup) :
    ((mapInsert m k v).map Prod.fst).Nodup := by
  by_cases hany : m.any (fun p => p.1 == k)
  · rw [mapInsert_keys_eq_of_mem m k v hany]; exact h
  · simp only [mapInsert, if_neg hany, List.map_append, List.map_cons,
      List.map_nil]
    rw [List.nodup_append]
    refine ⟨h, List.nodup_singleton k, ?_⟩
    intro a ha hk
    rw [List.mem_singleton] at hk
    subst hk
    rcases List.mem_map.mp ha with ⟨p, hp, hpk⟩
    rw [List.any_eq_true] at hany
    exact hany ⟨p, hp, by simp [hpk]⟩

theorem mapInsert_entry_mem (m : List (String × SSHResult)) (k : String)
    (v : SSHResult) (q : String × SSHResult) (h : q ∈ mapInsert m k v) :
    q ∈ m ∨ q = (k, v) := by
  simp only [mapInsert] at h
  by_cases hany : m.any (fun p => p.1 == k)
  · rw [if_pos hany] at h
    rcases List.mem_map.mp h with ⟨p, hp, hpq⟩
    by_cases hpk : p.1 = k
    · right; rw [← hpq]; simp [hpk]
    · left; rw [← hpq]; simpa [hpk] using hp
  · rw [if_neg hany] at h
    rcases List.mem_append.mp h with h' | h'
    · exact Or.inl h'
    · exact Or.inr (List.mem_singleton.mp h')

theorem aggregate_go_keys_mem (pairs : List (String × SSHResult))
    (acc : List (String × SSHResult)) (a : String) :
    a ∈ (pairs.foldl (fun m p => mapInsert m p.1 p.2) acc).map Prod.fst ↔
      a ∈ acc.map Prod.fst ∨ a ∈ pairs.map Prod.fst := by
  induction pairs generalizing acc with
  | nil => simp
  | cons p ps ih =>
    rw [List.foldl_cons, ih, mapInsert_keys_mem]
    simp only [List.map_cons, List.mem_cons]
    tauto

theorem aggregate_go_keys_nodup (pairs : List (String × SSHResult))
    (acc : List (String × SSHResult)) (h : (acc.map Prod.fst).Nodup) :
    ((pairs.foldl (fun m p => mapInsert m p.1 p.2) acc).map Prod.fst).Nodup := by
  induction pairs generalizing acc with
  | nil => exact h
  | cons p ps ih => exact ih _ (mapInsert_keys_nodup acc p.1 p.2 h)

theorem aggregate_go_entry_mem (pairs : List (String × SSHResult))
    (acc : List (String × SSHResult)) (q : String × SSHResult)
    (h : q ∈ pairs.foldl (fun m p => mapInsert m p.1 p.2) acc) :
    q ∈ acc ∨ q ∈ pairs := by
  induction pairs generalizing acc with
  | nil => exact Or.inl h
  | cons p ps ih =>
    rw [List.foldl_cons] at h
    rcases ih _ h with h' | h'
    · rcases mapInsert_entry_mem acc p.1 p.2 q h' with h'' | h''
      · exact Or.inl h''
      · right; rw [h'']; exact List.mem_cons_self _ _
    · exact Or.inr (List.mem_cons_of_mem _ h')

theorem aggregateResults_keys_nodup (pairs : List (String × SSHResult)) :
    ((aggregateResults pairs).map Prod.fst).Nodup :=
  aggregate_go_keys_nodup pairs [] (by simp)

theorem aggregateResults_keys_mem (pairs : List (String × SSHResult)) (a : String) :
    a ∈ (aggregateResults pairs).map Prod.fst ↔ a ∈ pairs.map Prod.fst := by
  rw [aggregateResults, aggregate_go_keys_mem]
  simp

theorem aggregateResults_length (pairs : List (String × SSHResult)) :
    (aggregateResults pairs).length = (pairs.map Prod.fst).dedup.length := by
  have hperm : ((aggregateResults pairs).map Prod.fst).Perm (pairs.map Prod.fst).dedup := by
    rw [List.perm_ext_iff_of_nodup (aggregateResults_keys_nodup pairs)
      (List.nodup_dedup _)]
    intro a
    rw [aggregateResults_keys_mem, List.mem_dedup]
  have := hperm.length_eq
  rwa [List.length_map] at this

/-- Claim C10: a fan-out over a host list with a duplicated host still runs
one task per (host, connection) pair, but the host-keyed aggregation keeps
exactly one entry per distinct host (the surviving entry is one of the
dispatched pairs), so the aggregated map has no duplicate keys, covers
exactly the dispatched hosts, and is strictly shorter than the number of
dispatched tasks. -/
theorem fanout_duplicate_hosts (pairs : List (String × SSHResult))
    (hdup : ¬ (pairs.map Prod.fst).Nodup) :
    ((aggregateResults pairs).map Prod.fst).Nodup ∧
    (∀ h, h ∈ (aggregateResults pairs).map Prod.fst ↔ h ∈ pairs.map Prod.fst) ∧
    (∀ q, q ∈ aggregateResults pairs → q ∈ pairs) ∧
    (aggregateResults pairs).length < pairs.length := by
  refine ⟨aggregateResults_keys_nodup pairs, aggregateResults_keys_mem pairs,
    fun q hq => ?_, ?_⟩
  · rcases aggregate_go_entry_mem pairs [] q hq with h | h
    · cases h
    · exact h
  · rw [aggregateResults_length]
    have hsub : (pairs.map Prod.fst).dedup.Sublist (pairs.map Prod.fst) :=
      List.dedup_sublist _
    rcases Nat.lt_or_ge (pairs.map Prod.fst).dedup.length (pairs.map Prod.fst).length
      with hlt | hge
    · rwa [List.length_map] at hlt
    · exfalso
      have heq : (pairs.map Prod.fst).dedup = pairs.map Prod.fst :=
        hsub.eq_of_length (Nat.le_antisymm hsub.length_le hge)
      exact hdup (heq ▸ List.nodup_dedup _)

/-- Two tasks for the same host name, with distinct results, as dispatched by
a fan-out over a duplicated host list. -/
def dupPairs : List (String × SSHResult) :=
  [("h", { stdout := "a", stderr := "", status := 0 }),
   ("h", { stdout := "b", stderr := "", status := 0 })]

/-- Witness for C10: two tasks dispatched for the same host name collapse to
one aggregated entry. -/
theorem fanout_duplicate_hosts_witness :
    ((aggregateResults dupPairs).map Prod.fst).Nodup ∧
    (∀ h, h ∈ (aggregateResults dupPairs).map Prod.fst ↔
      h ∈ dupPairs.map Prod.fst) ∧
    (∀ q, q ∈ aggregateResults dupPairs → q ∈ dupPairs) ∧
    (aggregateResults dupPairs).length < dupPairs.length :=
  fanout_duplicate_hosts dupPairs (by decide)

/-! ## File tailers (connection.rs FileTailer, asynchronous.rs AsyncFileTailer)

The remote file is a list of bytes passed in explicitly; SFTP stat delivers
an optional size. The synchronous read seeks to from_pos and reads to EOF,
then records the resulting stream position; the asynchronous read fetches the
whole file and slices it, guarding the truncation case explicitly. -/

/-- Embeds connection.rs FileTailer state (the sftp handle is implicit and
the file contents are supplied at each call). -/
structure FileTailer where
  remote_file : String
  init_pos : Option Nat
  last_pos : Nat
  contents : Option (List Nat)
deriving DecidableEq

/-- Embeds FileTailer::seek_end: stat the file, set last_pos to its size (0
when the stat reports no size), and set init_pos to the reported size when it
is still unset. Returns the reported size as the source does. -/
def FileTailer.seek_end (t : FileTailer) (size : Option Nat) :
    Option Nat × FileTailer :=
  let t1 := { t with last_pos := size.getD 0 }
  let t2 := if t1.init_pos.isNone then { t1 with init_pos := size } else t1
  (size, t2)

/-- The failure surface of FileTailer::read: which of the four fallible
library calls (open, seek, read_to_string, stream_position) succeed. -/
structure TailReadEnv where
  openOk : Bool
  seekOk : Bool
  readOk : Bool
  posOk : Bool
deriving DecidableEq

/-- How a Python-facing call ends: a returned value, a catchable raised
error, or a process panic from expect/unwrap. -/
inductive PyOutcome (α : Type)
  | ok (a : α)
  | raised (msg : String)
  | panic
deriving DecidableEq

/-- Whether the outcome is a catchable raised error. -/
def PyOutcome.isRaised {α : Type} : PyOutcome α → Bool
  | PyOutcome.raised _ => true
  | _ => false

/-- Embeds connection.rs FileTailer::read with its failure paths: default
from_pos to last_pos; open the remote file (expect panics on failure), seek
to from_pos (unwrap), read to EOF (unwrap) obtaining the bytes in
from_pos..len (none when from_pos is past EOF), then set last_pos to the
stream position after the read (unwrap), which is the seek target plus the
number of bytes read. -/
def FileTailer.readChecked (t : FileTailer) (env : TailReadEnv)
    (file : List Nat) (from_pos : Option Nat) :
    PyOutcome (List Nat × FileTailer) :=
  let fp := from_pos.getD t.last_pos
  if !env.openOk then PyOutcome.panic
  else if !env.seekOk then PyOutcome.panic
  else if !env.readOk then PyOutcome.panic
  else if !env.posOk then PyOutcome.panic
  else
    let contents := file.drop fp
    let pos := fp + contents.length
    PyOutcome.ok (contents, { t with last_pos := pos })

/-- FileTailer::read on the path where every library call succeeds. -/
def FileTailer.read (t : FileTailer) (file : List Nat) (from_pos : Option Nat) :
    List Nat × FileTailer :=
  let fp := from_pos.getD t.last_pos
  let contents := file.drop fp
  let pos := fp + contents.length
  (contents, { t with last_pos := pos })

theorem readChecked_all_ok (t : FileTailer) (file : List Nat)
    (from_pos : Option Nat) :
    t.readChecked { openOk := true, seekOk := true, readOk := true, posOk := true }
      file from_pos = PyOutcome.ok (t.read file from_pos) := rfl

/-- Embeds FileTailer enter for the with-statement: seek_end. -/
def FileTailer.scopeEnter (t : FileTailer) (size : Option Nat) :
    Option Nat × FileTailer :=
  t.seek_end size

/-- Embeds FileTailer exit for the with-statement: read from init_pos (an
Option, so an unset init_pos falls back to last_pos exactly as passing None
does) and store the text in contents. -/
def FileTailer.scopeExit (t : FileTailer) (file : List Nat) : FileTailer :=
  let r := t.read file t.init_pos
  { r.2 with contents := some r.1 }

/-- Embeds asynchronous.rs TailerState (the sftp field is implicit). -/
structure TailerState where
  init_pos : Option Nat
  last_pos : Nat
  contents : Option (List Nat)
deriving DecidableEq

/-- Embeds AsyncFileTailer::_seek_end: read the stat size with default 0, set
last_pos to it, and set init_pos to it when still unset. -/
def TailerState.seekEnd (st : TailerState) (size : Option Nat) :
    Nat × TailerState :=
  let sz := size.getD 0
  let st1 := { st with last_pos := sz }
  let st2 := if st1.init_pos.isNone then { st1 with init_pos := some sz } else st1
  (sz, st2)

/-- Embeds AsyncFileTailer::read: default from_pos to last_pos, read the
whole file; if from_pos is past the end, set last_pos to the length and
return empty; otherwise return the bytes from from_pos on and set last_pos
to the length. -/
def TailerState.read (st : TailerState) (file : List Nat)
    (from_pos : Option Nat) : List Nat × TailerState :=
  let fp := from_pos.getD st.last_pos
  if fp > file.length then
    ([], { st with last_pos := file.length })
  else
    (file.drop fp, { st with last_pos := file.length })

/-- Embeds AsyncFileTailer exit: read the whole file and slice it from
init_pos (default 0). The Rust slice buffer[init_pos..] panics when init_pos
exceeds the buffer length, hence the None outcome there; last_pos is not
touched. -/
def TailerState.scopeExit (st : TailerState) (file : List Nat) :
    Option TailerState :=
  let ip := st.init_pos.getD 0
  if ip ≤ file.length then
    some { st with contents := some (file.drop ip) }
  else none

/-- Claim C1 counterexample: the synchronous FileTailer::read on a truncated
file (from_pos 5 past the 3-byte file) leaves last_pos at the seek position
5, not at the current file length 3 as the claim states. -/
theorem tailer_read_truncation_cex :
    ¬ ((FileTailer.read
        { remote_file := "f", init_pos := none, last_pos := 0, contents := none }
        [1, 2, 3] (some 5)).2.last_pos = 3) := by decide

/-- Claim C1 amended: both tailers return the bytes in [from_pos, len) —
empty when from_pos is past the end — with from_pos defaulting to last_pos;
the asynchronous tailer then sets last_pos to the current file length in
every case, while the synchronous tailer sets it to max(from_pos, len), so
a from_pos past the end leaves last_pos at from_pos instead of the length. -/
theorem tailer_read_spec (t : FileTailer) (st : TailerState) (file : List Nat)
    (o : Option Nat) :
    ((st.read file o).1 = file.drop (o.getD st.last_pos) ∧
      (st.read file o).2.last_pos = file.length) ∧
    ((t.read file o).1 = file.drop (o.getD t.last_pos) ∧
      (t.read file o).2.last_pos = max (o.getD t.last_pos) file.length) := by
  constructor
  · simp only [TailerState.read]
    by_cases h : o.getD st.last_pos > file.length
    · rw [if_pos h]
      exact ⟨(List.drop_eq_nil_iff.mpr (le_of_lt h)).symm, rfl⟩
    · rw [if_neg h]
      exact ⟨rfl, rfl⟩
  · refine ⟨rfl, ?_⟩
    simp only [FileTailer.read, List.length_drop]
    omega

/-- A synchronous tailer that has already read to position 10 of a file that
later shrank. -/
def shrunkTailer : FileTailer :=
  { remote_file := "f", init_pos := some 0, last_pos := 10, contents := none }

/-- Claim C7 counterexample: seek_end on a file that shrank to 3 bytes while
last_pos was 10 lowers last_pos to 3, so last_pos is not monotonically
non-decreasing across operations. -/
theorem tailer_mono_cex :
    ¬ (shrunkTailer.last_pos ≤ (shrunkTailer.seek_end (some 3)).2.last_pos) := by
  decide

/-- Claim C7 amended: last_pos is non-decreasing across a tailer operation
provided the file has not shrunk below the held position: whenever the stat
size (for seek_end and scope entry) and the file length (for read and scope
exit) are at least the current last_pos, the operation leaves last_pos
greater than or equal to its previous value. Without that proviso, the
synchronous read with a defaulted from_pos still never lowers last_pos,
while the asynchronous read (defaulted or not) always sets last_pos to the
current file length and so lowers it on a file shrunk below the held
position. -/
theorem tailer_last_pos_mono (t : FileTailer) (st : TailerState)
    (file : List Nat) (size : Option Nat) (o : Option Nat) :
    (t.last_pos ≤ size.getD 0 → t.last_pos ≤ (t.seek_end size).2.last_pos) ∧
    (t.last_pos ≤ size.getD 0 → t.last_pos ≤ (t.scopeEnter size).2.last_pos) ∧
    (t.last_pos ≤ file.length → t.last_pos ≤ (t.read file o).2.last_pos) ∧
    (t.last_pos ≤ file.length → t.last_pos ≤ (t.scopeExit file).last_pos) ∧
    (st.last_pos ≤ size.getD 0 → st.last_pos ≤ (st.seekEnd size).2.last_pos) ∧
    (st.last_pos ≤ file.length → st.last_pos ≤ (st.read file o).2.last_pos) ∧
    (∀ st2, st.scopeExit file = some st2 → st.last_pos ≤ st2.last_pos) ∧
    t.last_pos ≤ (t.read file none).2.last_pos ∧
    (st.read file o).2.last_pos = file.length := by
  have hseek : (t.seek_end size).2.last_pos = size.getD 0 := by
    simp only [FileTailer.seek_end]
    by_cases h : t.init_pos.isNone <;> simp [h]
  have hseek' : (st.seekEnd size).2.last_pos = size.getD 0 := by
    simp only [TailerState.seekEnd]
    by_cases h : st.init_pos.isNone <;> simp [h]
  have hreadLe : ∀ o' : Option Nat, t.last_pos ≤ file.length →
      t.last_pos ≤ (t.read file o').2.last_pos := by
    intro o' hlen
    simp only [FileTailer.read, List.length_drop]
    cases o' with
    | none => simp only [Option.getD]; omega
    | some f => simp only [Option.getD]; omega
  have hreadNone : t.last_pos ≤ (t.read file none).2.last_pos := by
    simp only [FileTailer.read, List.length_drop, Option.getD]
    omega
  have hasync : (st.read file o).2.last_pos = file.length := by
    simp only [TailerState.read]
    by_cases h : o.getD st.last_pos > file.length
    · rw [if_pos h]
    · rw [if_neg h]
  refine ⟨fun hs => hseek ▸ hs, fun hs => hseek ▸ hs, fun hl => hreadLe o hl,
    fun hl => ?_, fun hs => hseek' ▸ hs, fun hl => hasync ▸ hl, ?_, hreadNone,
    hasync⟩
  · simp only [FileTailer.scopeExit]
    exact hreadLe t.init_pos hl
  · intro st2 hst2
    simp only [TailerState.scopeExit] at hst2
    by_cases h : st.init_pos.getD 0 ≤ file.length
    · rw [if_pos h] at hst2
      cases hst2
      exact Nat.le_refl _
    · rw [if_neg h] at hst2
      cases hst2

/-- A synchronous tailer at position 1, for the C7 witness. -/
def monoTailer : FileTailer :=
  { remote_file := "f", init_pos := some 0, last_pos := 1, contents := none }

/-- An asynchronous tailer state at position 1, for the C7 witness. -/
def monoState : TailerState :=
  { init_pos := some 0, last_pos := 1, contents := none }

/-- Witness for C7 at a tailer holding position 1 on a 3-byte file whose stat
reports size 2 (each proviso holds there and is discharged by the inner
implications). -/
theorem tailer_last_pos_mono_witness :
    (monoTailer.last_pos ≤ (some 2 : Option Nat).getD 0 →
      monoTailer.last_pos ≤ (monoTailer.seek_end (some 2)).2.last_pos) ∧
    (monoTailer.last_pos ≤ (some 2 : Option Nat).getD 0 →
      monoTailer.last_pos ≤ (monoTailer.scopeEnter (some 2)).2.last_pos) ∧
    (monoTailer.last_pos ≤ [7, 8, 9].length →
      monoTailer.last_pos ≤ (monoTailer.read [7, 8, 9] none).2.last_pos) ∧
    (monoTailer.last_pos ≤ [7, 8, 9].length →
      monoTailer.last_pos ≤ (monoTailer.scopeExit [7, 8, 9]).last_pos) ∧
    (monoState.last_pos ≤ (some 2 : Option Nat).getD 0 →
      monoState.last_pos ≤ (monoState.seekEnd (some 2)).2.last_pos) ∧
    (monoState.last_pos ≤ [7, 8, 9].length →
      monoState.last_pos ≤ (monoState.read [7, 8, 9] none).2.last_pos) ∧
    (∀ st2, monoState.scopeExit [7, 8, 9] = some st2 →
      monoState.last_pos ≤ st2.last_pos) ∧
    monoTailer.last_pos ≤ (monoTailer.read [7, 8, 9] none).2.last_pos ∧
    (monoState.read [7, 8, 9] none).2.last_pos = [7, 8, 9].length :=
  tailer_last_pos_mono monoTailer monoState [7, 8, 9] (some 2) none

/-- Claim C9: the synchronous FileTailer::read never surfaces a catchable
error: whatever the four fallible library calls do, the call either returns
the plain text or aborts in a panic from expect/unwrap; every library
failure becomes a panic. -/
theorem tailer_read_never_raises (t : FileTailer) (env : TailReadEnv)
    (file : List Nat) (o : Option Nat) :
    (t.readChecked env file o).isRaised = false ∧
    ((env.openOk && env.seekOk && env.readOk && env.posOk) = false →
      t.readChecked env file o = PyOutcome.panic) := by
  rcases env with ⟨op, se, re, po⟩
  cases op <;> cases se <;> cases re <;> cases po <;>
    simp [FileTailer.readChecked, PyOutcome.isRaised]

/-! ## Connection::execute and the session timeout (connection.rs)

The ssh2 session carries a read/write timeout the execute call may override.
The three fallible steps (channel open, exec, channel drain) are passed in as
the outcome the library delivered; exec failure hits an unwrap and panics. -/

/-- The repo-visible state of the synchronous ssh2 session: its timeout. -/
structure SyncSession where
  timeout : Nat
deriving DecidableEq

/-- The outcomes the SSH library delivers to one execute call: whether the
channel opens, whether exec is accepted, and what draining the channel
returns (a terminal SSHResult or a read error). -/
structure ExecEnv where
  channelOpenOk : Bool
  execOk : Bool
  channelRead : Except String SSHResult

/-- Embeds connection.rs Connection::execute: record the original timeout;
apply the per-call override when given; open the channel (on failure, return
the error at once); exec (unwrap panics on failure); drain via
read_from_channel, restoring the timeout before returning either the error
or the result. The early channel-open return does not restore the timeout. -/
def Connection.execute (sess : SyncSession) (env : ExecEnv)
    (timeout : Option Nat) : PyOutcome SSHResult × SyncSession :=
  let original_timeout := sess.timeout
  let sess1 := match timeout with
    | some t => { sess with timeout := t }
    | none => sess
  if !env.channelOpenOk then
    (PyOutcome.raised "Timed out establishing channel session.", sess1)
  else if !env.execOk then
    (PyOutcome.panic, sess1)
  else
    match env.channelRead with
    | Except.ok res =>
        (PyOutcome.ok res, { sess1 with timeout := original_timeout })
    | Except.error e =>
        (PyOutcome.raised e, { sess1 with timeout := original_timeout })

/-- Claim C2, evaluated at the failing input: an execute call with per-call
timeout 5 on a session whose timeout is 0 hits a channel-open failure and
returns with the session timeout still 5 — the claimed restore to the
original value 0 does not happen on this exit path. -/
theorem execute_timeout_leak :
    (Connection.execute { timeout := 0 }
      { channelOpenOk := false, execOk := true,
        channelRead := Except.ok { stdout := "", stderr := "", status := 0 } }
      (some 5)).2.timeout = 5 := by decide

/-! ## Interactive shells (connection.rs, asynchronous.rs)

The read of the synchronous shell flushes, sends EOF and drains the channel via
read_from_channel; a later send writes to a channel whose write side is
closed, which fails and hits an unwrap. The read of the asynchronous shell drains
the arrived channel messages with the first-packet wait and the 50 ms idle
tail-drain; in the embedding the message trace holds everything that arrived
before the drain gave up, and no timing is represented beyond that. -/

/-- Embeds connection.rs InteractiveShell state: whether the write side has
sent EOF, and the stored result attribute. -/
structure SyncShell where
  pty : Bool
  eofSent : Bool
  result : Option SSHResult
deriving DecidableEq

/-- The outcomes the library delivers to one synchronous shell read: flush,
send_eof, the drain of the channel, and the close used on the error path. -/
structure ShellEnv where
  flushOk : Bool
  sendEofOk : Bool
  channelRead : Except String SSHResult
  closeOk : Bool

/-- Embeds InteractiveShell::read: flush (raising on failure), send EOF
(raising on failure), then drain via read_from_channel; on a drain error,
close the channel (raising if even that fails), clear the stored result and
re-raise; on success return the terminal result. -/
def InteractiveShell.read (sh : SyncShell) (env : ShellEnv) :
    PyOutcome SSHResult × SyncShell :=
  if !env.flushOk then (PyOutcome.raised "Channel flush error", sh)
  else if !env.sendEofOk then (PyOutcome.raised "Send EOF error", sh)
  else
    let sh1 := { sh with eofSent := true }
    match env.channelRead with
    | Except.ok result => (PyOutcome.ok result, sh1)
    | Except.error e =>
        if env.closeOk then
          (PyOutcome.raised e, { sh1 with result := none })
        else (PyOutcome.raised "Channel close error", sh1)

/-- Embeds InteractiveShell::send: write_all to the channel and unwrap. A
write on a channel whose write side already sent EOF fails, so the unwrap
panics; otherwise the write succeeds. -/
def InteractiveShell.send (sh : SyncShell) : PyOutcome Unit :=
  if sh.eofSent then PyOutcome.panic else PyOutcome.ok ()

/-- A typed message a channel yields while draining. -/
inductive ChanMsg
  | data (payload : String)
  | extendedData (ext : Nat) (payload : String)
  | exitStatus (code : Nat)
  | other
deriving DecidableEq

/-- The channel-reader exec path (the drain loop of AsyncConnection::execute):
accumulate data into stdout, extended data with code 1 into stderr, record
the exit status, ignore the rest, and finish at channel close. -/
def execDrain : List ChanMsg → String → String → Int → SSHResult
  | [], out, err, code => { stdout := out, stderr := err, status := code }
  | ChanMsg.data d :: rest, out, err, code => execDrain rest (out ++ d) err code
  | ChanMsg.extendedData ext d :: rest, out, err, code =>
      execDrain rest out (if ext == 1 then err ++ d else err) code
  | ChanMsg.exitStatus c :: rest, out, err, _ =>
      execDrain rest out err (Int.ofNat c)
  | ChanMsg.other :: rest, out, err, code => execDrain rest out err code

/-- The drain loop of AsyncInteractiveShell::read: the first-packet wait and
the idle tail-drain both accumulate data into stdout and any extended data
into stderr and skip every other message, so over the trace of messages that
arrived they amount to this single pass. -/
def asyncShellDrain : List ChanMsg → String → String → String × String
  | [], out, err => (out, err)
  | ChanMsg.data d :: rest, out, err => asyncShellDrain rest (out ++ d) err
  | ChanMsg.extendedData _ d :: rest, out, err => asyncShellDrain rest out (err ++ d)
  | ChanMsg.exitStatus _ :: rest, out, err => asyncShellDrain rest out err
  | ChanMsg.other :: rest, out, err => asyncShellDrain rest out err

/-- Embeds AsyncInteractiveShell::read: drain the arrived messages and return
them with status 0 (every return path of the source carries status 0; exit
status messages fall into the ignored arm and no EOF is sent). -/
def AsyncInteractiveShell.read (msgs : List ChanMsg) : SSHResult :=
  let drained := asyncShellDrain msgs "" ""
  { stdout := drained.1, stderr := drained.2, status := 0 }

/-- Claim C6 counterexample: on a trace whose remote command exited with
status 7, the asynchronous shell read returns status 0, not the terminal
exec-path result (which carries 7) as the claim states. -/
theorem shell_read_async_status_cex :
    ¬ ((AsyncInteractiveShell.read [ChanMsg.data "hi", ChanMsg.exitStatus 7]).status =
      (execDrain [ChanMsg.data "hi", ChanMsg.exitStatus 7] "" "" 0).status) := by
  decide

/-- Claim C6 amended: the synchronous shell read flushes and sends EOF (when
both succeed the shell is read-finalized: its write side has sent EOF and a
later send panics instead of being accepted), and a successful drain returns
the terminal Result of the channel reader; the asynchronous shell read
instead drains with the first-packet wait and idle tail-drain, sends no EOF,
and always returns status 0. -/
theorem shell_read_spec (sh : SyncShell) (env : ShellEnv) (msgs : List ChanMsg)
    (hflush : env.flushOk = true) (heof : env.sendEofOk = true) :
    (InteractiveShell.read sh env).2.eofSent = true ∧
    (∀ r, env.channelRead = Except.ok r →
      (InteractiveShell.read sh env).1 = PyOutcome.ok r) ∧
    InteractiveShell.send (InteractiveShell.read sh env).2 = PyOutcome.panic ∧
    (AsyncInteractiveShell.read msgs).status = 0 := by
  have hread : ∀ r, env.channelRead = Except.ok r →
      (InteractiveShell.read sh env).1 = PyOutcome.ok r := by
    intro r hr
    simp only [InteractiveShell.read, hflush, heof, hr, Bool.not_true,
      Bool.false_eq_true, if_false]
  have heofSent : (InteractiveShell.read sh env).2.eofSent = true := by
    simp only [InteractiveShell.read, hflush, heof, Bool.not_true,
      Bool.false_eq_true, if_false]
    match env.channelRead with
    | Except.ok r => rfl
    | Except.error e =>
        by_cases hc : env.closeOk
        · simp [hc]
        · simp [hc]
  refine ⟨heofSent, hread, ?_, rfl⟩
  simp [InteractiveShell.send, heofSent]

/-- A freshly opened synchronous shell, for the C6 witness. -/
def shellSample : SyncShell :=
  { pty := false, eofSent := false, result := none }

/-- A shell read environment whose drain delivers exit status 4, for the C6
witness. -/
def shellEnvSample : ShellEnv :=
  { flushOk := true
    sendEofOk := true
    channelRead := Except.ok { stdout := "out", stderr := "", status := 4 }
    closeOk := true }

/-- Witness for C6 at a concrete shell and a drain delivering exit status 4. -/
theorem shell_read_spec_witness :
    (InteractiveShell.read shellSample shellEnvSample).2.eofSent = true ∧
    (∀ r, shellEnvSample.channelRead = Except.ok r →
      (InteractiveShell.read shellSample shellEnvSample).1 = PyOutcome.ok r) ∧
    InteractiveShell.send (InteractiveShell.read shellSample shellEnvSample).2 =
      PyOutcome.panic ∧
    (AsyncInteractiveShell.read [ChanMsg.data "hi"]).status = 0 :=
  shell_read_spec shellSample shellEnvSample [ChanMsg.data "hi"] rfl rfl

/-! ## Closing a session (connection.rs, asynchronous.rs)

The asynchronous close takes the two cached handles (session and sftp) and
sets both to None, returning unit; the synchronous close delegates to the
external ssh2 disconnect, which writes a disconnect message on the still-open
transport and succeeds also when one was already sent, and touches no field
of the Connection itself. -/

/-- The repo-visible state of AsyncConnection the close call touches: the
cached session handle and the cached SFTP session (handles stand in as
numbers). -/
structure AsyncConnState where
  session : Option Nat
  sftp_session : Option Nat
deriving DecidableEq

/-- Embeds asynchronous.rs AsyncConnection::close: clear the cached SFTP
session, clear the cached session handle, return unit. -/
def AsyncConnection.close (st : AsyncConnState) :
    Except String Unit × AsyncConnState :=
  let st1 := { st with sftp_session := none }
  let st2 := { st1 with session := none }
  (Except.ok (), st2)

/-- The repo-visible state of the synchronous Connection that close could
touch; connection.rs Connection::close calls the external disconnect and
changes none of it. -/
structure SyncConnection where
  host : String
  port : Int
  username : String
deriving DecidableEq

/-- Embeds connection.rs Connection::close: session.disconnect with the
fixed reason, a write on the open transport that also succeeds when a
disconnect was already sent (external ssh2 call), then return unit; no field
of the Connection changes. -/
def Connection.close (c : SyncConnection) : Except String Unit × SyncConnection :=
  (Except.ok (), c)

/-- Claim C8: close is idempotent for both engines: a second close on an
already-closed session returns success and leaves the state exactly as the
first close left it. -/
theorem close_idempotent (c : SyncConnection) (st : AsyncConnState) :
    (Connection.close (Connection.close c).2).1 = Except.ok () ∧
    (Connection.close (Connection.close c).2).2 = (Connection.close c).2 ∧
    (AsyncConnection.close (AsyncConnection.close st).2).1 = Except.ok () ∧
    (AsyncConnection.close (AsyncConnection.close st).2).2 =
      (AsyncConnection.close st).2 := by
  exact ⟨rfl, rfl, rfl, rfl⟩

end Hussh
